import Mathlib

/-
Verification development for the real-time mesh viewer (src/meshviewer.py).

The Python source is shallowly embedded: pure computations become Lean
functions over lists and rationals, the stateful mailbox / watcher code
becomes explicit state passing, and code that can raise becomes functions
returning Option / Except or records carrying the raised error.  External
collaborators (tkinter, vispy, watchdog, subprocess) are modelled at the
boundary the spec describes for them.
-/

namespace MeshViewer

/- ----------------------------------------------------------------- -/
/- Path utilities: an embedding of the pathlib operations the source
   uses (Path(p).suffix, Path(p).parents[0], with_stem, with_suffix).
   Paths are strings; we work on their character lists with structural
   recursion so that everything reduces in the kernel. -/

/-- Split a character list on the slash character, mirroring
str.split behaviour used by pathlib to find path components. -/
def splitSlash : List Char → List (List Char)
  | [] => [[]]
  | c :: cs =>
    let r := splitSlash cs
    if c = '/' then [] :: r
    else
      match r with
      | [] => [[c]]
      | h :: t => (c :: h) :: t

/-- Join components back with slashes. -/
def joinSlash : List (List Char) → List Char
  | [] => []
  | [c] => c
  | c :: cs => c ++ '/' :: joinSlash cs

/-- Last path component (the file name, pathlib Path.name). -/
def lastComp (l : List Char) : List Char :=
  (splitSlash l).getLastD []

/-- Index of the last dot in a name, if any. -/
def rfindDot : List Char → Option Nat
  | [] => none
  | c :: cs =>
    match rfindDot cs with
    | some i => some (i + 1)
    | none => if c = '.' then some 0 else none

/-- Extension of a file name, following pathlib: the part of the name
from its last dot, but only when that dot is neither the first nor the
last character of the name; otherwise the empty extension. -/
def suffixOfName (n : List Char) : List Char :=
  match rfindDot n with
  | some i => if 0 < i ∧ i + 1 < n.length then n.drop i else []
  | none => []

/-- Stem of a file name: the name with its extension removed. -/
def stemOfName (n : List Char) : List Char :=
  match rfindDot n with
  | some i => if 0 < i ∧ i + 1 < n.length then n.take i else n
  | none => n

/-- pathlib Path(path).suffix on a path string. -/
def path_suffix (p : String) : String :=
  String.mk (suffixOfName (lastComp p.toList))

/-- Replace the last component of a path, pathlib Path.with_name. -/
def withNameL (l newName : List Char) : List Char :=
  joinSlash ((splitSlash l).dropLast ++ [newName])

/-- pathlib Path.with_stem: keep the extension, replace the stem. -/
def with_stem (p : String) (st : String) : String :=
  String.mk (withNameL p.toList (st.toList ++ suffixOfName (lastComp p.toList)))

/-- pathlib Path.with_suffix: keep the stem, replace the extension. -/
def with_suffix (p : String) (s : String) : String :=
  String.mk (withNameL p.toList (stemOfName (lastComp p.toList) ++ s.toList))

/-- pathlib Path(p).parents[0]: the parent directory of a path. -/
def parentDir (p : String) : String :=
  let comps := splitSlash p.toList
  if comps.length ≤ 1 then "."
  else
    let ps := comps.dropLast
    if ps = [[]] then "/" else String.mk (joinSlash ps)

/- ----------------------------------------------------------------- -/
/- Handler dispatch (Controller.__init__ lines 226-229 and
   Controller.get_file_handler lines 290-291).

   self.file_handlers = defaultdict(lambda: default_handler)
   self.file_handlers[".py"] = self.PythonFileHandler(self)
   self.file_handlers[".scad"] = self.ScadFileHandler(self)
   ...
   return self.file_handlers[pathlib.Path(path).suffix]

   The defaultdict is modelled as an association list together with the
   defaultdict access rule: a hit returns the stored handler and leaves
   the table unchanged; a miss inserts the default handler under the
   missed key and returns it (construction on miss). -/

/-- Handler identities of the three handler classes in the source. -/
inductive FileHandlerKind where
  | defaultHandler
  | pythonHandler
  | scadHandler
deriving DecidableEq, Repr

/-- The table as built once in Controller.__init__. -/
def initial_file_handlers : List (String × FileHandlerKind) :=
  [(".py", FileHandlerKind.pythonHandler), (".scad", FileHandlerKind.scadHandler)]

/-- Association-list lookup (dict lookup on string keys). -/
def assocFind : List (String × FileHandlerKind) → String → Option FileHandlerKind
  | [], _ => none
  | (k, v) :: rest, key => if k = key then some v else assocFind rest key

/-- defaultdict access: on a miss the default-producing lambda runs and
its result is stored under the missed key. Returns the handler together
with the table after the access. -/
def defaultdict_get (m : List (String × FileHandlerKind)) (key : String) :
    FileHandlerKind × List (String × FileHandlerKind) :=
  match assocFind m key with
  | some h => (h, m)
  | none => (FileHandlerKind.defaultHandler, m ++ [(key, FileHandlerKind.defaultHandler)])

/-- Controller.get_file_handler: index the defaultdict with the path's
suffix exactly as computed by pathlib (no case folding in the source). -/
def get_file_handler (m : List (String × FileHandlerKind)) (path : String) :
    FileHandlerKind × List (String × FileHandlerKind) :=
  defaultdict_get m (path_suffix path)

/- ----------------------------------------------------------------- -/
/- Mesh geometry (class Mesh, lines 119-157, and Model.get_bounding_box,
   lines 108-116).  Vertices are rows of rationals (numpy float rows in
   the source, whose min/max arithmetic is exact), faces are lists of
   vertex indices.  Python min()/max() over a nonempty list is a fold;
   on an empty list Python raises, which the theorems exclude by
   hypothesis. -/

/-- Python min over a list (the empty case never occurs under the
hypotheses of the theorems that use it). -/
def pyMin : List ℚ → ℚ
  | [] => 0
  | x :: xs => xs.foldl min x

/-- Python max over a list, same convention as pyMin. -/
def pyMax : List ℚ → ℚ
  | [] => 0
  | x :: xs => xs.foldl max x

/-- Mesh.get_vertices: for each face, the list of vertex positions its
indices reference. Out-of-range access raises in Python; the theorems
carry a validity hypothesis so the default row is never consulted. -/
def get_vertices (vertices : List (List ℚ)) (faces : List (List Nat)) :
    List (List (List ℚ)) :=
  faces.map (fun face => face.map (fun ivt => vertices.getD ivt []))

/-- The per-axis coordinate list x_i of Mesh.get_bounding_box: the
i-th coordinate of every face-referenced vertex occurrence (the
flattened get_vertices result). -/
def axis_coords (vertices : List (List ℚ)) (faces : List (List Nat)) (i : Nat) :
    List ℚ :=
  ((get_vertices vertices faces).flatten).map (fun p => p.getD i 0)

/-- Mesh.get_bounding_box: flatten the per-face vertex lists, then per
axis (the axis count is the length of the first stored vertex) take the
min and max coordinate. The source stores each axis as a two-element
list; we use a pair. -/
def get_bounding_box (vertices : List (List ℚ)) (faces : List (List Nat)) :
    List (ℚ × ℚ) :=
  (List.range (vertices.headD []).length).map
    (fun i => (pyMin (axis_coords vertices faces i), pyMax (axis_coords vertices faces i)))

/-- The Mesh record: vertices, faces, and the bounding box that
Mesh.__init__ computes eagerly and stores. -/
structure Mesh where
  vertices : List (List ℚ)
  faces : List (List Nat)
  bounding_box : List (ℚ × ℚ)
deriving DecidableEq, Repr

/-- Mesh.__init__: store the data and compute the bounding box once. -/
def mkMesh (vertices : List (List ℚ)) (faces : List (List Nat)) : Mesh :=
  { vertices := vertices, faces := faces,
    bounding_box := get_bounding_box vertices faces }

/-- Canonicalisation in Mesh.get_line_segments: if jv > iv the edge is
(iv, jv), otherwise (jv, iv). -/
def canonical_edge (iv jv : Nat) : Nat × Nat :=
  if jv > iv then (iv, jv) else (jv, iv)

/-- The canonical edges contributed by one face: consecutive index
pairs around the cyclic boundary, wrap-around included. -/
def face_edges (face : List Nat) : List (Nat × Nat) :=
  (List.range face.length).map
    (fun i => canonical_edge (face.getD i 0) (face.getD ((i + 1) % face.length) 0))

/-- The line_segments set built by Mesh.get_line_segments before the
final comprehension: a Python set of canonical index pairs. -/
def line_segments_set (faces : List (List Nat)) : Finset (Nat × Nat) :=
  (faces.map face_edges).flatten.toFinset

/-- Python sequence indexing with an integer that may be negative:
a negative index selects from the end of the list. -/
def python_index (vertices : List (List ℚ)) (k : ℤ) : List ℚ :=
  if k < 0 then vertices.getD (vertices.length - (-k).toNat) []
  else vertices.getD k.toNat []

/-- The pair of vertex rows the final comprehension of
Mesh.get_line_segments produces for one canonical edge:
[self.vertices[edge[0] - 1], self.vertices[edge[1] - 1]]. -/
def segment_for_edge (vertices : List (List ℚ)) (e : Nat × Nat) :
    List (List ℚ) :=
  [python_index vertices ((e.1 : ℤ) - 1), python_index vertices ((e.2 : ℤ) - 1)]

/-- Mesh.get_line_segments: the segments produced for the edge set
(the Python list iterates the set in unspecified order, so the result
is modelled as the set of produced segments). -/
def get_line_segments (vertices : List (List ℚ)) (faces : List (List Nat)) :
    Finset (List (List ℚ)) :=
  (line_segments_set faces).image (segment_for_edge vertices)

/-- Merge step of Model.get_bounding_box: for each axis of the
accumulated box, fold in the other mesh's stored box for that axis
(the source takes min over the two-element axis list, hence min and
max of both components). -/
def mergeBB (acc other : List (ℚ × ℚ)) : List (ℚ × ℚ) :=
  (List.range acc.length).map
    (fun i =>
      let cur := acc.getD i (0, 0)
      let x := other.getD i (0, 0)
      (min cur.1 (min x.1 x.2), max cur.2 (max x.1 x.2)))

/-- Model.get_bounding_box.  In the source, bbox is an alias of
self.data[0].bounding_box and the merge assigns through that alias, so
the call returns the aggregate box AND leaves the first mesh's stored
bounding_box overwritten with it.  The embedding returns both the
result and the post-state of the mesh list. (The empty-list case
raises IndexError in Python and is excluded by the claims.) -/
def model_get_bounding_box (data : List Mesh) : List (ℚ × ℚ) × List Mesh :=
  match data with
  | [] => ([], [])
  | m0 :: rest =>
      let final := rest.foldl (fun acc m => mergeBB acc m.bounding_box) m0.bounding_box
      (final, { m0 with bounding_box := final } :: rest)

/- ----------------------------------------------------------------- -/
/- Reload mailbox and poll loop (Controller.__init__ lines 233-234,
   Controller.file_reloader lines 309-321,
   Controller.DefaultFileHandler.reload lines 378-385).

   Shared state: reload_lock (a non-reentrant lock) and reload_file
   (None or a path).  The lock serialises the two sides, so the
   embedding is a sequential state machine whose operations are the
   completed critical sections. -/

/-- An error raised by Model.load_file / vispy during
load_file_in_viewer (the collaborator read can fail arbitrarily). -/
structure LoadErr where
  msg : String
deriving DecidableEq, Repr

/-- The shared controller state the two threads exchange. -/
structure CState where
  lockHeld : Bool
  reload_file : Option String
deriving DecidableEq, Repr

/-- Number of pending paths remembered by the mailbox. -/
def pendingCount (s : CState) : Nat :=
  match s.reload_file with
  | none => 0
  | some _ => 1

/-- Python truthiness of the reload_file slot as tested by
file_reloader: None and the empty string are falsy. -/
def truthy : Option String → Bool
  | none => false
  | some p => p ≠ ""

/-- DefaultFileHandler.reload: acquire the lock (blocking), overwrite
reload_file with the new path, release.  A held lock blocks the caller,
so the completed effect exists only from a state with the lock free;
the theorems carry that as a hypothesis. -/
def handler_reload (p : String) (s : CState) : CState :=
  if s.lockHeld then s
  else { lockHeld := false, reload_file := some p }

/-- Result of one tick of Controller.file_reloader. -/
structure TickOut where
  state : CState
  loaded : List String
  err : Option LoadErr
  rescheduled : Bool
deriving DecidableEq, Repr

/-- One tick of Controller.file_reloader, with load standing for
load_file_in_viewer (clear + load_file + plot), which may raise.
The source has no try/except: when load raises, the statements after
it (clearing reload_file, releasing the lock, and the
root_frame.after reschedule) never run and the exception propagates
out of the tick. -/
def file_reloader (load : String → Except LoadErr Unit) (s : CState) : TickOut :=
  if s.lockHeld then
    { state := s, loaded := [], err := none, rescheduled := true }
  else
    match s.reload_file with
    | some p =>
      if p ≠ "" then
        match load p with
        | Except.error e =>
            { state := { lockHeld := true, reload_file := some p },
              loaded := [], err := some e, rescheduled := false }
        | Except.ok _ =>
            { state := { lockHeld := false, reload_file := none },
              loaded := [p], err := none, rescheduled := true }
      else
        { state := { lockHeld := false, reload_file := none },
          loaded := [], err := none, rescheduled := true }
    | none =>
        { state := { lockHeld := false, reload_file := none },
          loaded := [], err := none, rescheduled := true }

/- ----------------------------------------------------------------- -/
/- Watch sessions (Controller.BaseFileHandler, lines 335-376).

   The watchdog Observer collaborator is modelled at its documented
   boundary: Observer.schedule(handler, path, recursive) returns an
   ObservedWatch handle identified by (path, recursive), which is the
   only kind of key Observer.unschedule accepts — looking up any other
   key (in particular a plain file-path string) in the observer's
   watch table raises KeyError.  Each observer ever created is a
   Session recorded in the handler state; the calls follow makes on
   observers are additionally recorded as an event trace so that
   their order is provable. -/

/-- A key passed to Observer.unschedule: either an ObservedWatch
handle as returned by schedule (identified by path and recursive
flag), or a plain file-path string, which is what the source
actually passes. -/
inductive WatchKey where
  | watchHandle (path : String) (recursive : Bool)
  | pathStr (p : String)
deriving DecidableEq, Repr

/-- The exception unschedule raises on a key that is not a scheduled
watch of the observer (a KeyError in watchdog, whose watch table is
keyed by ObservedWatch objects only). -/
inductive WatchErr where
  | keyError (key : WatchKey)
deriving DecidableEq, Repr

/-- Whether an unschedule key denotes a scheduled watch (path,
recursive flag).  A plain string key never equals an ObservedWatch,
so it matches nothing. -/
def keyMatches (key : WatchKey) (w : String × Bool) : Bool :=
  match key with
  | WatchKey.watchHandle p r => w.1 = p && w.2 = r
  | WatchKey.pathStr _ => false

/-- One watchdog Observer instance over its lifetime, with the
ObservedWatch handles scheduled on it. -/
structure Session where
  sid : Nat
  watches : List (String × Bool)
  started : Bool
  stopped : Bool
  joined : Bool
deriving DecidableEq, Repr

/-- A session is an active observation while started and not stopped. -/
def sessionActive (ss : Session) : Bool :=
  ss.started && !ss.stopped

/-- BaseFileHandler state: the sessions ever created plus the fields
set in BaseFileHandler.__init__ (observer, observed_file,
observed_path, observer_watch, last_reload). Time is an abstract tick
counter standing for datetime.now(). -/
structure WatchState where
  sessions : List Session
  observer : Option Nat
  observed_file : Option String
  observed_path : Option String
  observer_watch : Option (String × Bool)
  last_reload : Option Nat
deriving DecidableEq, Repr

/-- BaseFileHandler.__init__: no observer, nothing observed. -/
def initWatchState : WatchState :=
  { sessions := [], observer := none, observed_file := none,
    observed_path := none, observer_watch := none, last_reload := none }

/-- Calls follow makes on observer objects, in program order. -/
inductive WEvent where
  | unscheduleEv (sid : Nat) (key : WatchKey)
  | stopEv (sid : Nat)
  | joinEv (sid : Nat)
  | createEv (sid : Nat)
  | scheduleEv (sid : Nat) (path : String)
  | startEv (sid : Nat)
deriving DecidableEq, Repr

/-- Observer.unschedule: remove the watch the key denotes from the
observer's watch table, or raise KeyError when the key denotes no
scheduled watch of that observer. -/
def observerUnschedule (sessions : List Session) (oid : Nat) (key : WatchKey) :
    Except WatchErr (List Session) :=
  if sessions.any (fun ss => ss.sid = oid && ss.watches.any (keyMatches key)) then
    Except.ok (sessions.map
      (fun ss =>
        if ss.sid = oid then
          { ss with watches := ss.watches.filter (fun w => !(keyMatches key w)) }
        else ss))
  else Except.error (WatchErr.keyError key)

/-- Observer.stop followed by Observer.join on one observer. -/
def stopJoin (sessions : List Session) (oid : Nat) : List Session :=
  sessions.map
    (fun ss =>
      if ss.sid = oid then { ss with stopped := true, joined := true } else ss)

/-- Result of one follow call: the handler state when the call
returns or raises, the observer calls made up to that point, and the
exception that propagated, if any. -/
structure FollowOut where
  state : WatchState
  events : List WEvent
  raised : Option WatchErr
deriving DecidableEq, Repr

/-- The tail of follow shared by every non-raising path: create a
fresh Observer, record the observed file and its parent directory,
schedule the parent directory non-recursively (storing the returned
watch handle), start the observer and reset the debounce clock. -/
def createSession (now : Nat) (file : String) (sessions : List Session)
    (prevEvents : List WEvent) : FollowOut :=
  let nsid := sessions.length
  let parent := parentDir file
  let newSess : Session :=
    { sid := nsid, watches := [(parent, false)], started := true,
      stopped := false, joined := false }
  { state :=
      { sessions := sessions ++ [newSess],
        observer := some nsid,
        observed_file := some file,
        observed_path := some parent,
        observer_watch := some (parent, false),
        last_reload := some now },
    events := prevEvents ++ [WEvent.createEv nsid, WEvent.scheduleEv nsid parent,
                             WEvent.startEv nsid],
    raised := none }

/-- BaseFileHandler.follow.  With a previous observer present, the
source calls self.observer.unschedule(self.observed_file) — the
observed FILE PATH, not the ObservedWatch handle it stored in
self.observer_watch — so that call raises KeyError and the
statements after it (stop, join, and the whole new-session setup)
never run; the exception propagates out of follow with the handler
state unchanged.  Were unschedule given a scheduled watch instead,
the old observer would be stopped and joined and a new session
created. -/
def follow (now : Nat) (file : String) (s : WatchState) : FollowOut :=
  match s.observer with
  | none => createSession now file s.sessions []
  | some oid =>
      let key := WatchKey.pathStr (s.observed_file.getD "")
      match observerUnschedule s.sessions oid key with
      | Except.error e =>
          { state := s, events := [WEvent.unscheduleEv oid key], raised := some e }
      | Except.ok sess1 =>
          createSession now file (stopJoin sess1 oid)
            [WEvent.unscheduleEv oid key, WEvent.stopEv oid, WEvent.joinEv oid]

/- ----------------------------------------------------------------- -/
/- ScadFileHandler.reload (lines 400-411).

   subprocess.run is modelled by the outcome of attempting to run each
   executable: either the executable is missing (subprocess.run raises
   FileNotFoundError) or the process runs and exits with some code.
   The source calls subprocess.run WITHOUT check=True, so an exit code
   is returned, never raised.  Only FileNotFoundError from the primary
   is caught; a FileNotFoundError from the fallback propagates, which
   aborts the reload attempt before super().reload. -/

/-- Outcome of attempting to run one external executable. -/
inductive RunOutcome where
  | notFound
  | exited (code : ℤ)
deriving DecidableEq, Repr

/-- Availability and exit behaviour of the two compiler executables. -/
structure ScadEnv where
  openscad : RunOutcome
  openscad_nightly : RunOutcome
deriving DecidableEq, Repr

/-- The deterministic sibling output path:
file.with_stem("solidpython_temp").with_suffix(".stl"). -/
def scad_new_file (file_path : String) : String :=
  with_suffix (with_stem file_path "solidpython_temp") ".stl"

/-- What one ScadFileHandler.reload attempt did: the argv lists handed
to subprocess.run in order, and the path passed on to super().reload,
or none when the reload attempt raised instead of delegating. -/
structure ScadReloadOut where
  commands : List (List String)
  delegated : Option String
deriving DecidableEq, Repr

/-- ScadFileHandler.reload. -/
def scad_reload (env : ScadEnv) (file_path : String) : ScadReloadOut :=
  let new_file := scad_new_file file_path
  let cmd1 := ["openscad", "-o", new_file, file_path]
  let cmd2 := ["openscad-nightly", "-o", new_file, file_path]
  match env.openscad with
  | RunOutcome.notFound =>
      match env.openscad_nightly with
      | RunOutcome.notFound => { commands := [cmd1, cmd2], delegated := none }
      | RunOutcome.exited _ => { commands := [cmd1, cmd2], delegated := some new_file }
  | RunOutcome.exited _ => { commands := [cmd1], delegated := some new_file }

/- ----------------------------------------------------------------- -/
/- Spec-side definitions: mathematical statements the claims are
   checked against, written from the spec's words rather than from the
   code. -/

/-- The vertex row stored one index below index i, with Python's
negative indexing for i = 0 (the last stored row):  the row
self.vertices[i - 1] denotes. -/
def predecessor_row (vertices : List (List ℚ)) (i : Nat) : List ℚ :=
  if i = 0 then vertices.getD (vertices.length - 1) []
  else vertices.getD (i - 1) []

/-- Spec statement for the bounding box: per axis, the box entry is
attained by and bounds exactly the coordinates of vertices referenced
by at least one face (so unreferenced vertices cannot influence it,
the min and max over that coordinate set being unique). -/
def IsBoundingBoxOfReferenced (vertices : List (List ℚ)) (faces : List (List Nat))
    (bb : List (ℚ × ℚ)) : Prop :=
  bb.length = (vertices.headD []).length ∧
  ∀ i, i < bb.length →
    ((∃ j, j ∈ faces.flatten ∧ (bb.getD i (0, 0)).1 = (vertices.getD j []).getD i 0) ∧
     (∀ j, j ∈ faces.flatten → (bb.getD i (0, 0)).1 ≤ (vertices.getD j []).getD i 0) ∧
     (∃ j, j ∈ faces.flatten ∧ (bb.getD i (0, 0)).2 = (vertices.getD j []).getD i 0) ∧
     (∀ j, j ∈ faces.flatten → (vertices.getD j []).getD i 0 ≤ (bb.getD i (0, 0)).2))

/-- Concrete mesh data for the claim that duplicated vertex positions
can make every produced segment coincide with its edge's endpoints:
eight stored vertices carrying four distinct positions, each position
stored twice in adjacent slots. -/
def quadVertices : List (List ℚ) :=
  [[0, 0, 0], [0, 0, 0], [1, 0, 0], [1, 0, 0],
   [0, 1, 0], [0, 1, 0], [0, 0, 1], [0, 0, 1]]

/-- A single quadrilateral face through the odd-numbered slots. -/
def quadFaces : List (List Nat) :=
  [[1, 3, 5, 7]]

/- ----------------------------------------------------------------- -/
/- Helper lemmas shared by the claim theorems. -/

theorem foldl_min_mem (xs : List ℚ) : ∀ x : ℚ, xs.foldl min x ∈ x :: xs := by
  induction xs with
  | nil => intro x; simp
  | cons a as ih =>
      intro x
      simp only [List.foldl_cons]
      rcases min_choice x a with hc | hc <;> rw [hc]
      · rcases List.mem_cons.mp (ih x) with h1 | h1 <;> simp [h1]
      · rcases List.mem_cons.mp (ih a) with h1 | h1 <;> simp [h1]

theorem foldl_min_le (xs : List ℚ) : ∀ x : ℚ, ∀ y ∈ x :: xs, xs.foldl min x ≤ y := by
  induction xs with
  | nil =>
      intro x y hy
      rcases List.mem_cons.mp hy with h | h
      · exact le_of_eq (h ▸ rfl)
      · simp at h
  | cons a as ih =>
      intro x y hy
      simp only [List.foldl_cons]
      have hle : as.foldl min (min x a) ≤ min x a :=
        ih (min x a) (min x a) (List.mem_cons_self _ _)
      rcases List.mem_cons.mp hy with rfl | h1
      · exact le_trans hle (min_le_left _ _)
      · rcases List.mem_cons.mp h1 with rfl | h2
        · exact le_trans hle (min_le_right _ _)
        · exact ih (min x a) y (List.mem_cons_of_mem _ h2)

theorem foldl_max_mem (xs : List ℚ) : ∀ x : ℚ, xs.foldl max x ∈ x :: xs := by
  induction xs with
  | nil => intro x; simp
  | cons a as ih =>
      intro x
      simp only [List.foldl_cons]
      rcases max_choice x a with hc | hc <;> rw [hc]
      · rcases List.mem_cons.mp (ih x) with h1 | h1 <;> simp [h1]
      · rcases List.mem_cons.mp (ih a) with h1 | h1 <;> simp [h1]

theorem foldl_max_ge (xs : List ℚ) : ∀ x : ℚ, ∀ y ∈ x :: xs, y ≤ xs.foldl max x := by
  induction xs with
  | nil =>
      intro x y hy
      rcases List.mem_cons.mp hy with h | h
      · exact le_of_eq (h ▸ rfl)
      · simp at h
  | cons a as ih =>
      intro x y hy
      simp only [List.foldl_cons]
      have hle : max x a ≤ as.foldl max (max x a) :=
        ih (max x a) (max x a) (List.mem_cons_self _ _)
      rcases List.mem_cons.mp hy with rfl | h1
      · exact le_trans (le_max_left _ _) hle
      · rcases List.mem_cons.mp h1 with rfl | h2
        · exact le_trans (le_max_right _ _) hle
        · exact ih (max x a) y (List.mem_cons_of_mem _ h2)

theorem pyMin_mem (l : List ℚ) (h : l ≠ []) : pyMin l ∈ l := by
  cases l with
  | nil => exact absurd rfl h
  | cons x xs => exact foldl_min_mem xs x

theorem pyMin_le (l : List ℚ) (y : ℚ) (hy : y ∈ l) : pyMin l ≤ y := by
  cases l with
  | nil => simp at hy
  | cons x xs => exact foldl_min_le xs x y hy

theorem pyMax_mem (l : List ℚ) (h : l ≠ []) : pyMax l ∈ l := by
  cases l with
  | nil => exact absurd rfl h
  | cons x xs => exact foldl_max_mem xs x

theorem pyMax_ge (l : List ℚ) (y : ℚ) (hy : y ∈ l) : y ≤ pyMax l := by
  cases l with
  | nil => simp at hy
  | cons x xs => exact foldl_max_ge xs x y hy

theorem flatten_map_map {α β : Type} (g : α → β) (L : List (List α)) :
    (L.map (fun f => f.map g)).flatten = L.flatten.map g := by
  induction L with
  | nil => rfl
  | cons a as ih =>
      simp only [List.map_cons, List.flatten_cons, List.map_append, ih]

theorem axis_coords_eq (vertices : List (List ℚ)) (faces : List (List Nat)) (i : Nat) :
    axis_coords vertices faces i =
      faces.flatten.map (fun j => (vertices.getD j []).getD i 0) := by
  unfold axis_coords get_vertices
  rw [flatten_map_map, List.map_map]
  rfl

theorem get_bounding_box_entry (vertices : List (List ℚ)) (faces : List (List Nat))
    (i : Nat) (hi : i < (vertices.headD []).length) :
    (get_bounding_box vertices faces).getD i (0, 0) =
      (pyMin (axis_coords vertices faces i), pyMax (axis_coords vertices faces i)) := by
  unfold get_bounding_box
  have h1 : i < ((List.range (vertices.headD []).length).map
      (fun i => (pyMin (axis_coords vertices faces i),
                 pyMax (axis_coords vertices faces i)))).length := by
    simpa using hi
  rw [List.getD_eq_getElem _ _ h1, List.getElem_map, List.getElem_range]

theorem assocFind_append_some (m l : List (String × FileHandlerKind)) (k : String)
    (v : FileHandlerKind) (h : assocFind m k = some v) :
    assocFind (m ++ l) k = some v := by
  induction m with
  | nil => simp [assocFind] at h
  | cons a rest ih =>
      rcases a with ⟨k1, v1⟩
      rw [List.cons_append]
      rw [show assocFind ((k1, v1) :: rest) k = if k1 = k then some v1 else assocFind rest k
        from rfl] at h
      rw [show assocFind ((k1, v1) :: (rest ++ l)) k =
          if k1 = k then some v1 else assocFind (rest ++ l) k from rfl]
      by_cases hk : k1 = k
      · rw [if_pos hk] at h ⊢; exact h
      · rw [if_neg hk] at h ⊢; exact ih h

theorem python_index_pred (vertices : List (List ℚ)) (i : Nat) :
    python_index vertices ((i : ℤ) - 1) = predecessor_row vertices i := by
  cases i with
  | zero =>
      have h : (((0 : Nat) : ℤ) - 1) < 0 := by decide
      rw [python_index, if_pos h, predecessor_row, if_pos rfl]
      norm_num
  | succ k =>
      have h : ¬((((k + 1 : Nat)) : ℤ) - 1 < 0) := by push_cast; omega
      rw [python_index, if_neg h, predecessor_row, if_neg (Nat.succ_ne_zero k)]
      have h2 : ((((k + 1 : Nat)) : ℤ) - 1).toNat = k := by push_cast; omega
      rw [h2]
      simp

/- ----------------------------------------------------------------- -/
/- Claim theorems. -/

/-- C1: Mailbox coalescing and clear-after-read.  From any mailbox
state with the lock free, after the watcher-side reload(A) and then
reload(B), the mailbox holds at most one pending path at every point
(and it is B), the next drain by file_reloader loads exactly B (so A
is never loaded when distinct from B), and the mailbox is empty and
the lock released immediately after the drain. -/
theorem c1_mailbox_coalescing (s : CState) (A B : String)
    (load : String → Except LoadErr Unit)
    (hfree : s.lockHeld = false) (hB : B ≠ "") (hok : load B = Except.ok ()) :
    pendingCount s ≤ 1 ∧
    pendingCount (handler_reload A s) ≤ 1 ∧
    pendingCount (handler_reload B (handler_reload A s)) ≤ 1 ∧
    (handler_reload B (handler_reload A s)).reload_file = some B ∧
    (file_reloader load (handler_reload B (handler_reload A s))).loaded = [B] ∧
    (file_reloader load (handler_reload B (handler_reload A s))).state.reload_file = none ∧
    (file_reloader load (handler_reload B (handler_reload A s))).state.lockHeld = false := by
  have h1 : handler_reload A s = { lockHeld := false, reload_file := some A } := by
    simp [handler_reload, hfree]
  have h2 : handler_reload B (handler_reload A s) =
      { lockHeld := false, reload_file := some B } := by
    rw [h1]; simp [handler_reload]
  have h3 : file_reloader load { lockHeld := false, reload_file := some B } =
      { state := { lockHeld := false, reload_file := none },
        loaded := [B], err := none, rescheduled := true } := by
    simp [file_reloader, hB, hok]
  have h0 : pendingCount s ≤ 1 := by
    rcases s with ⟨lh, rf⟩
    cases rf <;> simp [pendingCount]
  rw [h2, h3, h1]
  exact ⟨h0, by simp [pendingCount], by simp [pendingCount], rfl, rfl, rfl, rfl⟩

/-- C1 witness: the coalescing theorem applied at a concrete state and
concrete paths. -/
theorem c1_witness :
    (file_reloader (fun _ => Except.ok ())
        (handler_reload "b.stl"
          (handler_reload "a.stl" { lockHeld := false, reload_file := none }))).loaded =
      ["b.stl"] :=
  (c1_mailbox_coalescing { lockHeld := false, reload_file := none } "a.stl" "b.stl"
      (fun _ => Except.ok ()) rfl (by decide) rfl).2.2.2.2.1

/-- C2 counterexample: at a concrete state with a pending path, a load
error leaves the lock held, the pending path in place, and the loop
unscheduled — the claim that the lock is released and the loop
rescheduled fails on the code. -/
theorem c2_counterexample :
    (file_reloader (fun _ => Except.error { msg := "read_mesh failed" })
        { lockHeld := false, reload_file := some "broken.stl" }).state.lockHeld = true ∧
    (file_reloader (fun _ => Except.error { msg := "read_mesh failed" })
        { lockHeld := false, reload_file := some "broken.stl" }).rescheduled = false ∧
    (file_reloader (fun _ => Except.error { msg := "read_mesh failed" })
        { lockHeld := false, reload_file := some "broken.stl" }).state.reload_file =
      some "broken.stl" := by
  exact ⟨by decide, by decide, by decide⟩

/-- C2 amended: when load_file_in_viewer raises while file_reloader
processes a pending reload, the exception propagates out of the tick:
the reload lock is NOT released, the pending path is NOT cleared,
nothing is loaded, and the loop is NOT rescheduled, so no further tick
runs on its own. -/
theorem c2_amended (load : String → Except LoadErr Unit) (s : CState) (p : String)
    (e : LoadErr) (hfree : s.lockHeld = false) (hp : s.reload_file = some p)
    (hne : p ≠ "") (herr : load p = Except.error e) :
    (file_reloader load s).state.lockHeld = true ∧
    (file_reloader load s).state.reload_file = some p ∧
    (file_reloader load s).loaded = [] ∧
    (file_reloader load s).err = some e ∧
    (file_reloader load s).rescheduled = false := by
  rcases s with ⟨lh, rf⟩
  cases hfree
  cases hp
  simp [file_reloader, hne, herr]

/-- C2 witness: the amended error behaviour at a concrete input. -/
theorem c2_witness :
    (file_reloader (fun _ => Except.error { msg := "vispy failed" })
        { lockHeld := false, reload_file := some "m.stl" }).state.lockHeld = true :=
  (c2_amended (fun _ => Except.error { msg := "vispy failed" })
      { lockHeld := false, reload_file := some "m.stl" } "m.stl"
      { msg := "vispy failed" } rfl rfl (by decide) rfl).1

/-- C4 counterexample: suffix lookup is case sensitive in the source —
a path with suffix ".PY" resolves to the default handler while ".py"
resolves to the python handler, refuting case-insensitive dispatch. -/
theorem c4_counterexample :
    (get_file_handler initial_file_handlers "model.PY").1 =
      FileHandlerKind.defaultHandler ∧
    (get_file_handler initial_file_handlers "model.py").1 =
      FileHandlerKind.pythonHandler ∧
    FileHandlerKind.defaultHandler ≠ FileHandlerKind.pythonHandler := by
  exact ⟨by decide, by decide, by decide⟩

/-- C4 amended: dispatch is a case-SENSITIVE exact match on the file's
suffix as computed by pathlib; a suffix with an entry resolves to that
entry's handler and every other suffix (including case variants of
mapped ones) resolves to the Default handler. -/
theorem c4_amended (p : String) :
    (path_suffix p = ".py" →
        (get_file_handler initial_file_handlers p).1 = FileHandlerKind.pythonHandler) ∧
    (path_suffix p = ".scad" →
        (get_file_handler initial_file_handlers p).1 = FileHandlerKind.scadHandler) ∧
    (path_suffix p ≠ ".py" → path_suffix p ≠ ".scad" →
        (get_file_handler initial_file_handlers p).1 = FileHandlerKind.defaultHandler) := by
  refine ⟨?_, ?_, ?_⟩
  · intro h
    simp [get_file_handler, defaultdict_get, assocFind, initial_file_handlers, h]
  · intro h
    simp [get_file_handler, defaultdict_get, assocFind, initial_file_handlers, h]
  · intro h1 h2
    have hfind : assocFind initial_file_handlers (path_suffix p) = none := by
      simp only [initial_file_handlers, assocFind]
      rw [if_neg (fun hc => h1 hc.symm), if_neg (fun hc => h2 hc.symm)]
    simp [get_file_handler, defaultdict_get, hfind]

/-- C4 witness: the amended dispatch rule at a concrete path. -/
theorem c4_witness :
    (get_file_handler initial_file_handlers "box.scad").1 =
      FileHandlerKind.scadHandler :=
  (c4_amended "box.scad").2.1 (by decide)

/-- C8 counterexample: with the primary compiler present but exiting
with code 1 (non-zero), the reload attempt still delegates the
deterministic output path to the mesh-load step, refuting the claim
that a non-zero exit is fatal for the reload attempt. -/
theorem c8_counterexample :
    (scad_reload { openscad := RunOutcome.exited 1, openscad_nightly := RunOutcome.exited 0 }
        "parts/model.scad").delegated = some "parts/solidpython_temp.stl" ∧
    (scad_reload { openscad := RunOutcome.exited 1, openscad_nightly := RunOutcome.exited 0 }
        "parts/model.scad").commands =
      [["openscad", "-o", "parts/solidpython_temp.stl", "parts/model.scad"]] := by
  exact ⟨by decide, by decide⟩

/-- C8 amended: the handler invokes the compiler as
openscad -o out in, falls back to openscad-nightly exactly when the
primary executable is missing, and the reload attempt fails (without
delegating to the mesh-load step) exactly when both executables are
missing; the compiler's exit status is ignored, so delegation happens
whenever either executable ran, even on a non-zero exit. -/
theorem c8_amended (env : ScadEnv) (p : String) :
    ((scad_reload env p).commands.headD [] =
        ["openscad", "-o", scad_new_file p, p]) ∧
    ((scad_reload env p).commands.length = 2 ↔ env.openscad = RunOutcome.notFound) ∧
    (env.openscad = RunOutcome.notFound →
        (scad_reload env p).commands.getD 1 [] =
          ["openscad-nightly", "-o", scad_new_file p, p]) ∧
    ((scad_reload env p).delegated = none ↔
        env.openscad = RunOutcome.notFound ∧
        env.openscad_nightly = RunOutcome.notFound) ∧
    (∀ c : ℤ, env.openscad = RunOutcome.exited c →
        (scad_reload env p).delegated = some (scad_new_file p)) ∧
    (∀ c : ℤ, env.openscad = RunOutcome.notFound →
        env.openscad_nightly = RunOutcome.exited c →
        (scad_reload env p).delegated = some (scad_new_file p)) := by
  rcases env with ⟨o, n⟩
  cases o <;> cases n <;> simp [scad_reload]

/-- C8 witness: fallback delegation when the primary executable is
missing and the nightly executable runs. -/
theorem c8_witness :
    (scad_reload { openscad := RunOutcome.notFound, openscad_nightly := RunOutcome.exited 0 }
        "m.scad").delegated = some (scad_new_file "m.scad") :=
  (c8_amended { openscad := RunOutcome.notFound, openscad_nightly := RunOutcome.exited 0 }
      "m.scad").2.2.2.2.2 0 rfl rfl

/-- C9 counterexample: looking up a path with an unmapped suffix grows
the table — the defaultdict inserts the missed suffix bound to the
default handler, refuting that the mapping is never mutated. -/
theorem c9_counterexample :
    (get_file_handler initial_file_handlers "part.stl").2 =
      initial_file_handlers ++ [(".stl", FileHandlerKind.defaultHandler)] ∧
    (get_file_handler initial_file_handlers "part.stl").2 ≠ initial_file_handlers := by
  exact ⟨by decide, by decide⟩

/-- C9 amended: the mapping is constructed once at startup, and
get_file_handler leaves it unchanged when the path's suffix is mapped;
on an unmapped suffix it inserts exactly one new entry binding that
suffix to the default handler, and existing entries are never changed
or removed. -/
theorem c9_amended (m : List (String × FileHandlerKind)) (p : String) :
    (∀ h, assocFind m (path_suffix p) = some h → (get_file_handler m p).2 = m) ∧
    (assocFind m (path_suffix p) = none →
        (get_file_handler m p).2 =
          m ++ [(path_suffix p, FileHandlerKind.defaultHandler)]) ∧
    (∀ k v, assocFind m k = some v →
        assocFind ((get_file_handler m p).2) k = some v) := by
  refine ⟨?_, ?_, ?_⟩
  · intro h hh
    simp [get_file_handler, defaultdict_get, hh]
  · intro hh
    simp [get_file_handler, defaultdict_get, hh]
  · intro k v hkv
    cases hfind : assocFind m (path_suffix p) with
    | some h => simpa [get_file_handler, defaultdict_get, hfind] using hkv
    | none =>
        simpa [get_file_handler, defaultdict_get, hfind] using
          assocFind_append_some m [(path_suffix p, FileHandlerKind.defaultHandler)] k v hkv

/-- C9 witness: a mapped-suffix lookup leaves the table unchanged. -/
theorem c9_witness :
    (get_file_handler [(".py", FileHandlerKind.pythonHandler)] "x.py").2 =
      [(".py", FileHandlerKind.pythonHandler)] :=
  (c9_amended [(".py", FileHandlerKind.pythonHandler)] "x.py").1
    FileHandlerKind.pythonHandler (by decide)

/-- C3: at a concrete failing input — follow on d1/a.stl and then
follow on d2/b.stl from a freshly constructed handler — the second
follow raises KeyError inside observer.unschedule, because the source
passes the observed file path where watchdog requires the
ObservedWatch handle it stored in self.observer_watch.  The raise
happens before stop and join and before any new observer is created,
so the prior session remains the only active one, still on d1's
directory, and no session on d2 exists — against the claim that
follow(p2) succeeds leaving exactly one active session on p2's parent
after a full teardown. -/
theorem c3_follow_keyerror :
    ((follow 0 "d1/a.stl" initWatchState).raised = none) ∧
    ((follow 1 "d2/b.stl" (follow 0 "d1/a.stl" initWatchState).state).raised =
      some (WatchErr.keyError (WatchKey.pathStr "d1/a.stl"))) ∧
    ((follow 1 "d2/b.stl" (follow 0 "d1/a.stl" initWatchState).state).events =
      [WEvent.unscheduleEv 0 (WatchKey.pathStr "d1/a.stl")]) ∧
    ((follow 1 "d2/b.stl" (follow 0 "d1/a.stl" initWatchState).state).state.sessions.filter
        sessionActive =
      [{ sid := 0, watches := [("d1", false)], started := true,
         stopped := false, joined := false }]) ∧
    ((follow 1 "d2/b.stl" (follow 0 "d1/a.stl" initWatchState).state).state.observed_path =
      some "d1") := by
  exact ⟨by decide, by decide, by decide, by decide, by decide⟩

/-- C5: the edge set of a mesh contains exactly the canonicalised
pairs of consecutive vertices of each face's cyclic boundary
(wrap-around included), canonicalisation being
(lower index, higher index); being a set, each distinct edge appears
once no matter how many faces share it, and the two-triangle mesh
sharing one edge yields exactly 5 distinct pairs. -/
theorem c5_edges_spec :
    (∀ (faces : List (List Nat)) (e : Nat × Nat),
        e ∈ line_segments_set faces ↔
          ∃ f, f ∈ faces ∧ ∃ i, i < f.length ∧
            e = canonical_edge (f.getD i 0) (f.getD ((i + 1) % f.length) 0)) ∧
    (∀ a b : Nat, canonical_edge a b = (min a b, max a b)) ∧
    (line_segments_set [[0, 1, 2], [0, 2, 3]]).card = 5 := by
  refine ⟨?_, ?_, by decide⟩
  · intro faces e
    simp only [line_segments_set, List.mem_toFinset, List.mem_flatten, List.mem_map]
    constructor
    · rintro ⟨l, ⟨f, hf, rfl⟩, hel⟩
      simp only [face_edges, List.mem_map, List.mem_range] at hel
      obtain ⟨i, hi, rfl⟩ := hel
      exact ⟨f, hf, i, hi, rfl⟩
    · rintro ⟨f, hf, i, hi, rfl⟩
      refine ⟨face_edges f, ⟨f, hf, rfl⟩, ?_⟩
      simp only [face_edges, List.mem_map, List.mem_range]
      exact ⟨i, hi, rfl⟩
  · intro a b
    by_cases h : b > a
    · rw [canonical_edge, if_pos h, min_eq_left (le_of_lt h), max_eq_right (le_of_lt h)]
    · rw [canonical_edge, if_neg h, min_eq_right (not_lt.mp h), max_eq_left (not_lt.mp h)]

/-- C6: for a mesh whose faces reference only valid vertex indices and
reference at least one vertex, the bounding box stored at construction
is, per axis, the (min, max) over exactly the coordinates of vertices
referenced by at least one face — each bound is attained by a
referenced vertex and bounds all of them, so stored but unreferenced
vertices cannot influence it. -/
theorem c6_bounding_box_referenced (vertices : List (List ℚ)) (faces : List (List Nat))
    (hvalid : ∀ j ∈ faces.flatten, j < vertices.length)
    (hne : faces.flatten ≠ []) :
    IsBoundingBoxOfReferenced vertices faces (mkMesh vertices faces).bounding_box := by
  have hbb : (mkMesh vertices faces).bounding_box = get_bounding_box vertices faces := rfl
  have hlen : (get_bounding_box vertices faces).length = (vertices.headD []).length := by
    unfold get_bounding_box
    rw [List.length_map, List.length_range]
  constructor
  · rw [hbb, hlen]
  · intro i hi
    rw [hbb] at hi ⊢
    rw [hlen] at hi
    rw [get_bounding_box_entry vertices faces i hi, axis_coords_eq]
    have hcne : faces.flatten.map (fun j => (vertices.getD j []).getD i 0) ≠ [] := by
      intro hcon
      exact hne (List.map_eq_nil_iff.mp hcon)
    refine ⟨?_, ?_, ?_, ?_⟩
    · obtain ⟨j, hj, hjv⟩ := List.mem_map.mp (pyMin_mem _ hcne)
      exact ⟨j, hj, hjv.symm⟩
    · intro j hj
      exact pyMin_le _ _ (List.mem_map_of_mem _ hj)
    · obtain ⟨j, hj, hjv⟩ := List.mem_map.mp (pyMax_mem _ hcne)
      exact ⟨j, hj, hjv.symm⟩
    · intro j hj
      exact pyMax_ge _ _ (List.mem_map_of_mem _ hj)

/-- C6 witness: the bounding-box characterisation at a concrete mesh
whose fourth stored vertex is referenced by no face. -/
theorem c6_witness :
    IsBoundingBoxOfReferenced [[0, 0, 0], [2, 1, 5], [4, 3, 1], [9, 9, 9]] [[0, 1, 2]]
      (mkMesh [[0, 0, 0], [2, 1, 5], [4, 3, 1], [9, 9, 9]] [[0, 1, 2]]).bounding_box :=
  c6_bounding_box_referenced [[0, 0, 0], [2, 1, 5], [4, 3, 1], [9, 9, 9]] [[0, 1, 2]]
    (by decide) (by decide)

/-- C7 counterexample: with two concrete meshes, Model.get_bounding_box
overwrites the first mesh's stored bounding_box through the alias —
after the call it differs from the value Mesh.__init__ computed,
refuting that contained meshes are left unchanged. -/
theorem c7_counterexample :
    ((model_get_bounding_box
        [mkMesh [[0, 0, 0], [1, 0, 0], [0, 1, 0]] [[0, 1, 2]],
         mkMesh [[0, 0, 0], [2, 0, 0], [0, 2, 2]] [[0, 1, 2]]]).2.headD
        (mkMesh [] [])).bounding_box ≠
      (mkMesh [[0, 0, 0], [1, 0, 0], [0, 1, 0]] [[0, 1, 2]]).bounding_box := by
  decide

/-- C7 amended: Model.get_bounding_box leaves every mesh's vertices
and faces unchanged and leaves every mesh after the first unchanged,
but — because the merge loop assigns through the alias bbox =
data[0].bounding_box — it overwrites the first mesh's stored
bounding_box with the aggregate box it returns. -/
theorem c7_amended (m0 : Mesh) (rest : List Mesh) :
    ((model_get_bounding_box (m0 :: rest)).2.map Mesh.vertices =
        (m0 :: rest).map Mesh.vertices) ∧
    ((model_get_bounding_box (m0 :: rest)).2.map Mesh.faces =
        (m0 :: rest).map Mesh.faces) ∧
    ((model_get_bounding_box (m0 :: rest)).2.tail = rest) ∧
    (((model_get_bounding_box (m0 :: rest)).2.headD (mkMesh [] [])).bounding_box =
        (model_get_bounding_box (m0 :: rest)).1) ∧
    ((model_get_bounding_box (m0 :: rest)).1 =
        rest.foldl (fun acc m => mergeBB acc m.bounding_box) m0.bounding_box) := by
  exact ⟨rfl, rfl, rfl, rfl, rfl⟩

/-- C10 counterexample: a mesh with four distinct vertex positions
(so more than one) in which every segment get_line_segments produces
coincides exactly with the positions of its edge's own endpoints —
refuting that the returned coordinates are never those of the edge's
endpoints whenever the mesh has more than one distinct position. -/
theorem c10_counterexample :
    1 < quadVertices.toFinset.card ∧
    ∀ e ∈ line_segments_set quadFaces,
      segment_for_edge quadVertices e =
        [quadVertices.getD e.1 [], quadVertices.getD e.2 []] := by
  exact ⟨by decide, by decide⟩

/-- C10 amended: each segment returned for a canonicalised edge (i, j)
is [vertices[i - 1], vertices[j - 1]] — the rows one index below the
edge's endpoints, index -1 selecting the last stored row — so a
returned coordinate differs from the edge's own endpoint position
exactly when that predecessor row differs from the endpoint's row
(which can fail to happen even when the mesh has more than one
distinct vertex position). -/
theorem c10_off_by_one (vertices : List (List ℚ)) (faces : List (List Nat))
    (e : Nat × Nat) (he : e ∈ line_segments_set faces) :
    (segment_for_edge vertices e ∈ get_line_segments vertices faces) ∧
    (segment_for_edge vertices e =
        [predecessor_row vertices e.1, predecessor_row vertices e.2]) ∧
    (e.1 = 0 →
        python_index vertices ((e.1 : ℤ) - 1) =
          vertices.getD (vertices.length - 1) []) ∧
    (predecessor_row vertices e.1 ≠ vertices.getD e.1 [] →
        python_index vertices ((e.1 : ℤ) - 1) ≠ vertices.getD e.1 []) := by
  refine ⟨Finset.mem_image_of_mem _ he, ?_, ?_, ?_⟩
  · rw [segment_for_edge, python_index_pred, python_index_pred]
  · intro h0
    rw [python_index_pred, h0, predecessor_row, if_pos rfl]
  · intro hne
    rw [python_index_pred]
    exact hne

/-- C10 witness: the off-by-one mapping at a concrete mesh and edge,
where the produced segment visibly differs from the edge's endpoint
positions. -/
theorem c10_witness :
    segment_for_edge [[0, 0, 0], [1, 1, 1], [2, 2, 2]] (0, 1) =
      [predecessor_row [[0, 0, 0], [1, 1, 1], [2, 2, 2]] 0,
       predecessor_row [[0, 0, 0], [1, 1, 1], [2, 2, 2]] 1] :=
  (c10_off_by_one [[0, 0, 0], [1, 1, 1], [2, 2, 2]] [[0, 1, 2]] (0, 1)
      (by decide)).2.1

end MeshViewer
